import Mathlib

/-!
Verification development for the fullstack-convex task tracker.

We shallowly embed the backend mutation for task creation
(src/convex/createTask.ts), a model of the comment-append mutation, the
client-side filter/sort reducers (src/components/comments.tsx, second
document: the main App component), and the page components for creating
and editing a task (src/pages/task/new.tsx,
src/pages/task/[taskNumber]/edit.tsx).

The backend store is a single logical database; each mutation is applied
atomically (the concurrency model of the hosted service serializes
mutations), so a run of the system is a sequence of whole-mutation steps
starting from the empty store.
-/

namespace FullstackConvex

/-- A persisted user record: Convex document id (as a string, matching
the source's user._id.toString()) and display name. -/
structure User where
  uid : String
  name : String
deriving DecidableEq

/-- The owner stated in a createTask payload; the source only reads
taskInfo.owner?.id, a string. -/
structure OwnerRef where
  id : String
deriving DecidableEq

/-- The createTask payload (NewTaskInfo in src/types): the task fields
spread into the inserted document, plus the optional stated owner. -/
structure NewTaskInfo where
  title : String
  description : String
  status : Nat
  visibility : Nat
  owner : Option OwnerRef
deriving DecidableEq

/-- A persisted task document, with the fields written by createTask:
denormalized owner id and name, denormalized comment and file counts,
the sequential display number, and the payload fields from the spread. -/
structure Task where
  tid : Nat
  ownerId : Option String
  ownerName : Option String
  commentCount : Nat
  fileCount : Nat
  number : Nat
  title : String
  description : String
  status : Nat
  visibility : Nat
deriving DecidableEq

/-- A persisted comment document: body, author, creation timestamp and
parent task reference. -/
structure Comment where
  body : String
  author : String
  creationTime : Nat
  taskId : Nat
deriving DecidableEq

/-- The backend store: the tasks table in creation order (Convex's
default document order, so query.order desc .first is the last element)
and the comments table. -/
structure Db where
  tasks : List Task
  comments : List Comment
deriving DecidableEq

def emptyDb : Db := { tasks := [], comments := [] }

/-- The owner-mismatch guard of createTask:
taskInfo.owner?.id && taskInfo.owner.id !== user._id.toString().
JavaScript truthiness on the id string: the guard only fires when the
stated id is a non-empty string. -/
def ownerMismatch (taskInfo : NewTaskInfo) (user : User) : Bool :=
  match taskInfo.owner with
  | none => false
  | some o => o.id ≠ "" && o.id ≠ user.uid

/-- The number generation of createTask: read the most recently created
task (db.query tasks, order desc, first) and increment its number,
defaulting to 1 when the table is empty. -/
def newTaskNumber (db : Db) : Nat :=
  match db.tasks.getLast? with
  | some lastCreatedTask => lastCreatedTask.number + 1
  | none => 1

/-- The document written by db.insert in createTask: denormalized owner
fields (tied to the truthiness of taskInfo.owner), zero counts, the
generated number, and the payload fields from the spread. The document
id is the insertion index, which is what makes ids unique and fresh. -/
def insertedTask (db : Db) (user : User) (taskInfo : NewTaskInfo) : Task :=
  { tid := db.tasks.length
    ownerId := if taskInfo.owner.isSome then some user.uid else none
    ownerName := if taskInfo.owner.isSome then some user.name else none
    commentCount := 0
    fileCount := 0
    number := newTaskNumber db
    title := taskInfo.title
    description := taskInfo.description
    status := taskInfo.status
    visibility := taskInfo.visibility }

/-- The createTask mutation (src/convex/createTask.ts). The auth
argument models findUser(db, auth) — the identity resolver is not under
src/, so the resolved user (or none) is passed directly. A thrown
JavaScript Error is an Except.error; on success the new store and the
inserted id (taskId.toString()) are returned. -/
def createTask (db : Db) (auth : Option User) (taskInfo : NewTaskInfo) :
    Except String (Db × String) :=
  match auth with
  | none => Except.error "Error creating task: User identity not found"
  | some user =>
    if ownerMismatch taskInfo user then
      Except.error "Error creating task: Current user and task owner do not match"
    else
      Except.ok
        ({ db with tasks := db.tasks ++ [insertedTask db user taskInfo] },
          toString db.tasks.length)

/-- Modelled from the spec: the saveComment mutation's source is not
under src/ (only its client-side callers are). Per §4.3 it appends a
comment with the current timestamp and increments the parent task's
comment count by exactly one in the same logical operation, so it is a
single atomic step on the store. -/
def saveComment (db : Db) (taskId : Nat) (body : String) (author : String)
    (now : Nat) : Db :=
  { db with
    comments := db.comments ++
      [{ body := body, author := author, creationTime := now, taskId := taskId }]
    tasks := db.tasks.map fun t =>
      if t.tid == taskId then { t with commentCount := t.commentCount + 1 } else t }

/-- One atomic backend mutation: a successful createTask, or a
saveComment addressed to an existing task. The hosted store serializes
mutations (§5), so a system run is a sequence of these whole steps. -/
inductive Step : Db → Db → Prop where
  | create : ∀ db auth taskInfo db2 tid,
      createTask db auth taskInfo = Except.ok (db2, tid) → Step db db2
  | comment : ∀ db taskId body author now,
      (db.tasks.any fun t => t.tid == taskId) = true →
      Step db (saveComment db taskId body author now)

/-- A store state some reader could observe: reachable from the empty
store by whole mutation steps. -/
def ReachableDb (db : Db) : Prop :=
  Relation.ReflTransGen Step emptyDb db

/-- Task numbers in creation order are exactly 1, 2, ..., n. -/
def numbersSeq (db : Db) : Prop :=
  db.tasks.map (fun t => t.number) = List.range' 1 db.tasks.length

/-- Task document ids in creation order are exactly 0, 1, ..., n-1. -/
def idsSeq (db : Db) : Prop :=
  db.tasks.map (fun t => t.tid) = List.range db.tasks.length

/-- The store invariant maintained by the mutations: sequential
numbers, sequential fresh ids, comments reference existing tasks, and
every task's denormalized comment count equals the number of comments
that reference it. -/
def DbInv (db : Db) : Prop :=
  numbersSeq db ∧ idsSeq db ∧
  (∀ c ∈ db.comments, c.taskId < db.tasks.length) ∧
  (∀ t ∈ db.tasks, t.commentCount =
    (db.comments.filter fun c => c.taskId == t.tid).length)

/-- A concrete user for evaluating the theorems on closed inputs. -/
def aliceUser : User := { uid := "user1", name := "Alice" }

/-- A concrete ownerless createTask payload. -/
def basicTaskInfo : NewTaskInfo :=
  { title := "Task one", description := "", status := 0, visibility := 0,
    owner := none }

/-- The store after one successful createTask on the empty store. -/
def oneTaskDb : Db :=
  { tasks := [insertedTask emptyDb aliceUser basicTaskInfo], comments := [] }

/-- The store after a second successful createTask on oneTaskDb. -/
def createOk1 : Db :=
  { oneTaskDb with tasks :=
      oneTaskDb.tasks ++ [insertedTask oneTaskDb aliceUser basicTaskInfo] }

/-- A payload stating an owner with the empty-string id: JavaScript
truthiness makes the mismatch guard skip it. -/
def emptyIdOwnerInfo : NewTaskInfo :=
  { title := "T", description := "", status := 0, visibility := 0,
    owner := some { id := "" } }

/-- The store after the unrejected empty-id-owner createTask. -/
def emptyIdOwnerDb : Db :=
  { tasks := [insertedTask emptyDb aliceUser emptyIdOwnerInfo], comments := [] }

/-- A payload stating an owner with a non-empty id that differs from
aliceUser's id. -/
def mismatchOwnerInfo : NewTaskInfo :=
  { title := "T", description := "", status := 0, visibility := 0,
    owner := some { id := "user2" } }

/-- A payload stating aliceUser as owner. -/
def ownedTaskInfo : NewTaskInfo :=
  { title := "T", description := "", status := 0, visibility := 0,
    owner := some { id := "user1" } }

/-- The store after createTask of ownedTaskInfo on the empty store. -/
def ownedTaskDb : Db :=
  { tasks := [insertedTask emptyDb aliceUser ownedTaskInfo], comments := [] }

/-- Modelled from the spec: the Status enumeration and the STATUS_VALUES
constant live in src/types, which is not under src/. Per §3 the statuses
are New, In Progress, Done; the App component handles status values as
numbers (it compares with +value), so they are modelled as 0, 1, 2. -/
def STATUS_VALUES : List Nat := [0, 1, 2]

/-- The onChangeStatus handler of the App component
(src/components/comments.tsx, second document): checking a value
rebuilds the filter from STATUS_VALUES keeping previously-selected or
newly-checked entries; unchecking filters the value out. -/
def onChangeStatus (statusFilter : List Nat) (value : Nat)
    (checked : Bool) : List Nat :=
  if checked then
    STATUS_VALUES.filter fun s => statusFilter.contains s || s == value
  else
    statusFilter.filter fun s => s != value

/-- Modelled from the spec: the SortOrder enumeration lives in src/types,
which is not under src/; §4.4 gives the two directions. -/
inductive SortOrder where
  | ASC
  | DESC
deriving DecidableEq

/-- The client sort state: the sort key is the clicked header's DOM id
(a string, target.id in the handler), plus the direction. -/
structure SortState where
  sortKey : String
  sortOrder : SortOrder
deriving DecidableEq

/-- The onChangeSort click handler of the App component
(src/components/comments.tsx, second document). -/
def onChangeSort (st : SortState) (clickedId : String) : SortState :=
  if st.sortKey == clickedId then
    { st with sortOrder :=
        if st.sortOrder == SortOrder.ASC then SortOrder.DESC
        else SortOrder.ASC }
  else
    { sortKey := clickedId, sortOrder := SortOrder.ASC }

/-- The App component's initial sort state: SortKey.NUMBER, descending. -/
def initialSort : SortState :=
  { sortKey := "number", sortOrder := SortOrder.DESC }

/-- A reactive query result as a page component sees it: undefined while
loading, null when the record does not exist, or the record itself. -/
inductive QueryResult (α : Type) where
  | loading
  | null
  | found (a : α)
deriving DecidableEq

/-- The element tree a page component returns. A thrown Error is an
Except.error instead of a Render. -/
inductive Render where
  | taskNotFound
  | noPermission
  | editTaskForm (user : User) (task : Task)
  | createTaskForm (user : User)
  | nothing
deriving DecidableEq

/-- The isOwner check of EditTaskPage:
user && task && user._id.equals(task.ownerId). An Id compared against a
null ownerId, or a missing/loading user, yields false. -/
def editIsOwner (user : QueryResult User) (t : Task) : Bool :=
  match user with
  | QueryResult.found u =>
    match t.ownerId with
    | some oid => u.uid == oid
    | none => false
  | _ => false

/-- The edit page (src/pages/task/[taskNumber]/edit.tsx): a null task
lookup renders the not-found heading, a non-owner renders the
no-permission heading, the owner gets the edit form, and a still-loading
task renders nothing; no branch throws. -/
def EditTaskPage (user : QueryResult User) (task : QueryResult Task) :
    Except String Render :=
  match task with
  | QueryResult.null => Except.ok Render.taskNotFound
  | QueryResult.found t =>
    match user with
    | QueryResult.found u =>
      if editIsOwner (QueryResult.found u) t then
        Except.ok (Render.editTaskForm u t)
      else
        Except.ok Render.noPermission
    | _ => Except.ok Render.noPermission
  | QueryResult.loading => Except.ok Render.nothing

/-- The new-task page (src/pages/task/new.tsx): a resolved-null user
throws; a loading user renders nothing; a resolved user gets the
creation form. -/
def CreateTaskPage (user : QueryResult User) : Except String Render :=
  match user with
  | QueryResult.null => Except.error "User must be logged in to create a task"
  | QueryResult.loading => Except.ok Render.nothing
  | QueryResult.found u => Except.ok (Render.createTaskForm u)

/-- The handleAddComment submit handler of the Comments component
(src/components/comments.tsx, first document): it sets the newComment
input state to the empty string and then awaits saveComment with the
text captured at render time. The pair is the resulting input state and
the mutation outcome. -/
def handleAddComment (newComment : String)
    (saveCommentCall : String → Except String Unit) :
    String × Except String Unit :=
  ("", saveCommentCall newComment)

/-- A saveComment call that always fails, for exercising the failure
path. -/
def failingSave : String → Except String Unit :=
  fun _ => Except.error "mutation failed"

lemma newTaskNumber_eq (db : Db) (h : numbersSeq db) :
    newTaskNumber db = db.tasks.length + 1 := by
  unfold newTaskNumber
  have h2 : (db.tasks.map (fun t => t.number)).getLast? =
      (List.range' 1 db.tasks.length).getLast? := by rw [h]
  rw [List.getLast?_map, List.getLast?_range'] at h2
  cases hl : db.tasks.getLast? with
  | none =>
    have hnil : db.tasks = [] := List.getLast?_eq_none_iff.mp hl
    simp [hnil]
  | some t =>
    rw [hl] at h2
    by_cases hn : db.tasks.length = 0
    · exact absurd (List.length_eq_zero.mp hn)
        (fun hnil => by simp [hnil] at hl)
    · rw [if_neg hn] at h2
      have : t.number = 1 + db.tasks.length - 1 := by
        simpa using h2
      show t.number + 1 = db.tasks.length + 1
      omega

lemma createTask_ok_inversion (db : Db) (auth : Option User) (ti : NewTaskInfo)
    (db2 : Db) (tid : String)
    (hok : createTask db auth ti = Except.ok (db2, tid)) :
    ∃ user, auth = some user ∧ ownerMismatch ti user = false ∧
      db2 = { db with tasks := db.tasks ++ [insertedTask db user ti] } := by
  cases auth with
  | none => simp [createTask] at hok
  | some user =>
    by_cases hm : ownerMismatch ti user
    · simp [createTask, hm] at hok
    · simp only [createTask, hm, if_neg, Bool.false_eq_true, not_false_eq_true,
        if_false, Except.ok.injEq, Prod.mk.injEq] at hok
      exact ⟨user, rfl, by simpa using hm, hok.1.symm⟩

lemma dbInv_create (db : Db) (user : User) (ti : NewTaskInfo) (hinv : DbInv db) :
    DbInv { db with tasks := db.tasks ++ [insertedTask db user ti] } := by
  obtain ⟨h1, h2, h3, h4⟩ := hinv
  refine ⟨?_, ?_, ?_, ?_⟩
  · unfold numbersSeq at h1 ⊢
    simp only [List.map_append, List.length_append, List.map_cons, List.map_nil,
      List.length_cons, List.length_nil]
    rw [h1, insertedTask, newTaskNumber_eq db h1]
    rw [List.range'_1_concat]
    simp [Nat.add_comm]
  · unfold idsSeq at h2 ⊢
    simp only [List.map_append, List.length_append, List.map_cons, List.map_nil,
      List.length_cons, List.length_nil]
    rw [h2, insertedTask]
    rw [show db.tasks.length + (0 + 1) = db.tasks.length + 1 by omega,
      List.range_succ]
  · intro c hc
    simp only [List.length_append, List.length_cons, List.length_nil]
    exact Nat.lt_of_lt_of_le (h3 c hc) (by omega)
  · intro t ht
    rcases List.mem_append.mp ht with hmem | hmem
    · exact h4 t hmem
    · have heq : t = insertedTask db user ti := by simpa using hmem
      subst heq
      have hid : (insertedTask db user ti).tid = db.tasks.length := rfl
      have hcount : (insertedTask db user ti).commentCount = 0 := rfl
      rw [hid, hcount]
      have : (db.comments.filter fun c => c.taskId == db.tasks.length) = [] := by
        rw [List.filter_eq_nil_iff]
        intro c hc
        have := h3 c hc
        simp only [beq_iff_eq]
        omega
      rw [this]
      rfl

lemma dbInv_comment (db : Db) (taskId : Nat) (body author : String) (now : Nat)
    (hmem : (db.tasks.any fun t => t.tid == taskId) = true) (hinv : DbInv db) :
    DbInv (saveComment db taskId body author now) := by
  obtain ⟨h1, h2, h3, h4⟩ := hinv
  have hlt : taskId < db.tasks.length := by
    obtain ⟨t, htmem, htid⟩ := List.any_eq_true.mp hmem
    have hmm : t.tid ∈ db.tasks.map (fun t => t.tid) :=
      List.mem_map_of_mem _ htmem
    rw [h2] at hmm
    have := List.mem_range.mp hmm
    have heq : t.tid = taskId := by simpa using htid
    omega
  refine ⟨?_, ?_, ?_, ?_⟩
  · unfold numbersSeq at h1 ⊢
    simp only [saveComment, List.map_map, List.length_map]
    have hcomp : ((fun t : Task => t.number) ∘ fun t =>
        if t.tid == taskId then { t with commentCount := t.commentCount + 1 }
        else t) = (fun t : Task => t.number) := by
      funext t
      simp only [Function.comp]
      split <;> rfl
    rw [hcomp, h1]
  · unfold idsSeq at h2 ⊢
    simp only [saveComment, List.map_map, List.length_map]
    have hcomp : ((fun t : Task => t.tid) ∘ fun t =>
        if t.tid == taskId then { t with commentCount := t.commentCount + 1 }
        else t) = (fun t : Task => t.tid) := by
      funext t
      simp only [Function.comp]
      split <;> rfl
    rw [hcomp, h2]
  · intro c hc
    simp only [saveComment, List.length_map] at hc ⊢
    rcases List.mem_append.mp hc with hmc | hmc
    · exact h3 c hmc
    · have hce : c = ⟨body, author, now, taskId⟩ := by simpa using hmc
      subst hce
      exact hlt
  · intro t' ht'
    simp only [saveComment] at ht' ⊢
    obtain ⟨t, htmem, rfl⟩ := List.mem_map.mp ht'
    rw [List.filter_append]
    by_cases hid : t.tid = taskId
    · simp only [hid, beq_self_eq_true, if_true]
      have hc : t.commentCount = (db.comments.filter fun c =>
          c.taskId == t.tid).length := h4 t htmem
      simp only [List.length_append, List.filter_cons, List.filter_nil]
      rw [hid] at hc
      rw [← hc]
      simp [hid]
    · simp only [beq_iff_eq, hid, if_false, List.length_append,
        List.filter_cons, List.filter_nil]
      have hc : t.commentCount = (db.comments.filter fun c =>
          c.taskId == t.tid).length := h4 t htmem
      simp only [beq_iff_eq] at hc
      rw [hc]
      simp [Ne.symm hid]

lemma dbInv_step (dbA dbB : Db) (hs : Step dbA dbB) (hinv : DbInv dbA) :
    DbInv dbB := by
  cases hs with
  | create auth ti db2 tid hok =>
    obtain ⟨user, huser, hm, hdb⟩ :=
      createTask_ok_inversion dbA auth ti dbB tid hok
    rw [hdb]
    exact dbInv_create dbA user ti hinv
  | comment taskId body author now hguard =>
    exact dbInv_comment dbA taskId body author now hguard hinv

lemma dbInv_reachable (db : Db) (h : ReachableDb db) : DbInv db := by
  induction h with
  | refl =>
    refine ⟨?_, ?_, ?_, ?_⟩ <;> simp [numbersSeq, idsSeq, emptyDb]
  | tail hpath hstep ih =>
    exact dbInv_step _ _ hstep ih

lemma oneTaskDb_reachable : ReachableDb oneTaskDb :=
  Relation.ReflTransGen.single
    (Step.create emptyDb (some aliceUser) basicTaskInfo oneTaskDb
      (toString (0 : Nat)) rfl)

lemma le_foldr_max (x : Nat) (l : List Nat) (hx : x ∈ l) :
    x ≤ l.foldr max 0 := by
  induction l with
  | nil => cases hx
  | cons a t ih =>
    simp only [List.foldr_cons]
    rcases List.mem_cons.mp hx with rfl | hmem
    · exact le_max_left _ _
    · exact le_trans (ih hmem) (le_max_right _ _)

lemma chain_foldr_max : ∀ (l : List Nat) (m : Nat),
    List.Chain' (· ≤ ·) l → l.getLast? = some m → l.foldr max 0 = m := by
  intro l
  induction l with
  | nil => intro m h hm; simp at hm
  | cons a t ih =>
    intro m h hm
    cases t with
    | nil =>
      simp only [List.getLast?_singleton, Option.some.injEq] at hm
      subst hm
      simp
    | cons b t2 =>
      have hab : a ≤ b := (List.chain'_cons.mp h).1
      have hrec := ih m (List.chain'_cons.mp h).2 (by simpa using hm)
      simp only [List.foldr_cons] at hrec ⊢
      rw [hrec]
      have hbm : b ≤ m := by
        rw [← hrec]
        exact le_foldr_max b (b :: t2) (List.mem_cons_self b t2)
      exact max_eq_right (le_trans hab hbm)

/-- C1: for every createTask call that passes the authentication and
owner checks, starting from a store whose task numbers are monotone in
creation order (the invariant the code relies on when it reads the most
recently created task instead of scanning for the maximum), the number
assigned to the new task equals the maximum of the numbers of all
existing tasks plus 1, and equals 1 when no tasks exist. -/
theorem createTask_number_max_plus_one (db : Db) (auth : Option User)
    (ti : NewTaskInfo) (db2 : Db) (tid : String)
    (hmono : List.Chain' (· ≤ ·) (db.tasks.map fun t => t.number))
    (hok : createTask db auth ti = Except.ok (db2, tid)) :
    ∃ user t, auth = some user ∧ db2.tasks = db.tasks ++ [t] ∧
      t.number = (db.tasks.map fun t => t.number).foldr max 0 + 1 ∧
      (db.tasks = [] → t.number = 1) := by
  obtain ⟨user, huser, hm, hdb⟩ := createTask_ok_inversion db auth ti db2 tid hok
  refine ⟨user, insertedTask db user ti, huser, by rw [hdb], ?_, ?_⟩
  · show newTaskNumber db = _
    unfold newTaskNumber
    cases hl : db.tasks.getLast? with
    | none =>
      have hnil : db.tasks = [] := List.getLast?_eq_none_iff.mp hl
      simp [hnil]
    | some t0 =>
      have hlm : (db.tasks.map fun t => t.number).getLast? = some t0.number := by
        rw [List.getLast?_map, hl]
        rfl
      rw [chain_foldr_max _ _ hmono hlm]
  · intro hnil
    simp [insertedTask, newTaskNumber, hnil]

/-- C1 witness: in the concrete store holding one task with number 1,
a successful createTask appends a task numbered max + 1 = 2. -/
theorem createTask_number_max_plus_one_witness :
    ∃ user t, some aliceUser = some user ∧
      (createOk1).tasks = oneTaskDb.tasks ++ [t] ∧
      t.number = (oneTaskDb.tasks.map fun t => t.number).foldr max 0 + 1 ∧
      (oneTaskDb.tasks = [] → t.number = 1) :=
  createTask_number_max_plus_one oneTaskDb (some aliceUser) basicTaskInfo
    createOk1 (toString (1 : Nat)) (by simp [oneTaskDb]) rfl

/-- C2: along every serialized run of the system (task creations, with
comment appends interleaved), the tasks in creation order carry the
numbers 1, 2, ..., n: the i-th created task gets number i + 1 for
0-based i, with no gaps and no duplicates. -/
theorem createTask_numbers_sequential (db : Db) (h : ReachableDb db) :
    db.tasks.map (fun t => t.number) = List.range' 1 db.tasks.length ∧
    (∀ i, ∀ hi : i < db.tasks.length, (db.tasks.get ⟨i, hi⟩).number = i + 1) ∧
    (db.tasks.map (fun t => t.number)).Nodup := by
  obtain ⟨h1, h2, h3, h4⟩ := dbInv_reachable db h
  refine ⟨h1, ?_, ?_⟩
  · intro i hi
    have hg := List.get_of_eq h1 ⟨i, by simpa using hi⟩
    simp only [List.get_eq_getElem, List.getElem_map, Fin.coe_cast,
      List.getElem_range'] at hg
    simp only [List.get_eq_getElem]
    omega
  · rw [h1]
    exact List.nodup_range' 1 db.tasks.length

/-- C2 witness: the store reached by one concrete creation has task
numbers exactly [1]. -/
theorem createTask_numbers_sequential_witness :
    oneTaskDb.tasks.map (fun t => t.number) =
      List.range' 1 oneTaskDb.tasks.length :=
  (createTask_numbers_sequential oneTaskDb oneTaskDb_reachable).1

/-- C4: in every store state a reader can observe (mutations are atomic
steps, so observable states are exactly the reachable ones), each task's
denormalized comment count equals the number of comments referencing it
— the comment and the incremented count are never seen apart; and a
saveComment step adds exactly one comment for its task and puts the
parent task with its count incremented by exactly 1 into the store. -/
theorem saveComment_atomic_count (db : Db) (h : ReachableDb db) :
    (∀ t ∈ db.tasks, t.commentCount =
      (db.comments.filter fun c => c.taskId == t.tid).length) ∧
    (∀ taskId body author now,
      ((saveComment db taskId body author now).comments.filter
          fun c => c.taskId == taskId).length =
        (db.comments.filter fun c => c.taskId == taskId).length + 1 ∧
      (∀ t ∈ db.tasks, t.tid = taskId →
        { t with commentCount := t.commentCount + 1 } ∈
          (saveComment db taskId body author now).tasks)) := by
  obtain ⟨h1, h2, h3, h4⟩ := dbInv_reachable db h
  refine ⟨h4, ?_⟩
  intro taskId body author now
  constructor
  · simp [saveComment, List.filter_append]
  · intro t ht htid
    simp only [saveComment]
    have hmap : ({ t with commentCount := t.commentCount + 1 } : Task) =
        (fun t : Task => if t.tid == taskId
          then { t with commentCount := t.commentCount + 1 } else t) t := by
      simp [htid]
    rw [hmap]
    exact List.mem_map_of_mem _ ht

/-- C4 witness: in the concrete one-task store, the task's comment count
(0) equals the number of comments referencing it, and appending a
comment grows that number by one. -/
theorem saveComment_atomic_count_witness :
    (insertedTask emptyDb aliceUser basicTaskInfo).commentCount =
      (oneTaskDb.comments.filter fun c => c.taskId ==
        (insertedTask emptyDb aliceUser basicTaskInfo).tid).length ∧
    ((saveComment oneTaskDb 0 "hello" "user1" 42).comments.filter
        fun c => c.taskId == 0).length =
      (oneTaskDb.comments.filter fun c => c.taskId == 0).length + 1 :=
  ⟨(saveComment_atomic_count oneTaskDb oneTaskDb_reachable).1 _
      (by simp [oneTaskDb]),
    ((saveComment_atomic_count oneTaskDb oneTaskDb_reachable).2 0 "hello"
      "user1" 42).1⟩

/-- C3 counterexample: the owner-mismatch guard tests JavaScript
truthiness of taskInfo.owner?.id before comparing, so a payload stating
an owner with the empty-string id — different from the authenticated
user's id "user1" — is not rejected: createTask succeeds and persists a
task record. -/
theorem createTask_empty_owner_id_not_rejected :
    (emptyIdOwnerInfo.owner.map OwnerRef.id = some "" ∧
      aliceUser.uid ≠ "") ∧
    createTask emptyDb (some aliceUser) emptyIdOwnerInfo =
      Except.ok (emptyIdOwnerDb, toString (0 : Nat)) ∧
    emptyIdOwnerDb.tasks.length = 1 :=
  ⟨⟨rfl, by decide⟩, rfl, rfl⟩

/-- C3 amended: for every createTask call whose payload states an owner
with a non-empty id different from the resolved authenticated user's id,
the mutation fails with the owner-mismatch error and no task record is
persisted (the error return carries no store change). -/
theorem createTask_owner_mismatch_rejected (db : Db) (user : User)
    (ti : NewTaskInfo) (o : OwnerRef) (ho : ti.owner = some o)
    (hne : o.id ≠ "") (hneq : o.id ≠ user.uid) :
    createTask db (some user) ti =
      Except.error
        "Error creating task: Current user and task owner do not match" := by
  have hm : ownerMismatch ti user = true := by
    simp [ownerMismatch, ho, hne, hneq]
  simp [createTask, hm]

/-- C3 amended witness: a payload stating owner id "user2" against the
authenticated user "user1" is rejected. -/
theorem createTask_owner_mismatch_rejected_witness :
    createTask emptyDb (some aliceUser) mismatchOwnerInfo =
      Except.error
        "Error creating task: Current user and task owner do not match" :=
  createTask_owner_mismatch_rejected emptyDb aliceUser mismatchOwnerInfo
    { id := "user2" } rfl (by decide) (by decide)

/-- C8: every task record persisted by a successful createTask has
ownerId and the denormalized ownerName both null (when the payload
states no owner) or both set to the resolved user's id and name. -/
theorem createTask_owner_fields_coherent (db : Db) (user : User)
    (ti : NewTaskInfo) (db2 : Db) (tid : String)
    (hok : createTask db (some user) ti = Except.ok (db2, tid)) :
    ∃ t, db2.tasks = db.tasks ++ [t] ∧
      ((ti.owner = none ∧ t.ownerId = none ∧ t.ownerName = none) ∨
        (ti.owner ≠ none ∧ t.ownerId = some user.uid ∧
          t.ownerName = some user.name)) := by
  obtain ⟨user2, huser, hm, hdb⟩ :=
    createTask_ok_inversion db (some user) ti db2 tid hok
  injection huser with huser2
  subst huser2
  refine ⟨insertedTask db user ti, by rw [hdb], ?_⟩
  cases howner : ti.owner with
  | none => exact Or.inl ⟨rfl, by simp [insertedTask, howner], by
      simp [insertedTask, howner]⟩
  | some o => exact Or.inr ⟨by simp [howner], by simp [insertedTask, howner],
      by simp [insertedTask, howner]⟩

/-- C8 witness: a concrete createTask with a stated (matching) owner
persists both owner fields set; the inversion is evaluated on the
payload stating owner "user1". -/
theorem createTask_owner_fields_coherent_witness :
    ∃ t, (ownedTaskDb).tasks = emptyDb.tasks ++ [t] ∧
      ((ownedTaskInfo.owner = none ∧ t.ownerId = none ∧ t.ownerName = none) ∨
        (ownedTaskInfo.owner ≠ none ∧ t.ownerId = some aliceUser.uid ∧
          t.ownerName = some aliceUser.name)) :=
  createTask_owner_fields_coherent emptyDb aliceUser ownedTaskInfo
    ownedTaskDb (toString (0 : Nat)) rfl

/-- C5: for every status-filter state drawn from the status enumeration
in which a value is selected, toggling that value off and then on again
returns the filter to its original set of selected statuses. -/
theorem statusToggle_off_on_restores (statusFilter : List Nat) (value : Nat)
    (hv : value ∈ statusFilter)
    (hsub : ∀ s ∈ statusFilter, s ∈ STATUS_VALUES) :
    (onChangeStatus (onChangeStatus statusFilter value false)
        value true).toFinset = statusFilter.toFinset := by
  ext s
  simp [onChangeStatus]
  constructor
  · rintro ⟨hsv, ⟨hmem, hne⟩ | rfl⟩
    · exact hmem
    · exact hv
  · intro hmem
    by_cases hval : s = value
    · subst hval
      exact ⟨hsub s hmem, Or.inr rfl⟩
    · exact ⟨hsub s hmem, Or.inl ⟨hmem, hval⟩⟩

/-- C5 witness: toggling status 0 off and on in the initial filter
[New, In Progress] restores the original set. -/
theorem statusToggle_off_on_restores_witness :
    (onChangeStatus (onChangeStatus [0, 1] 0 false) 0 true).toFinset =
      ([0, 1] : List Nat).toFinset :=
  statusToggle_off_on_restores [0, 1] 0 (by decide) (by decide)

/-- C6: clicking the column equal to the current sort key keeps the key
and reverses the order (ASC becomes DESC and DESC becomes ASC); clicking
any other column sets the key to that column and the order to
ascending. -/
theorem sortClick_toggles_or_resets (st : SortState) (clickedId : String) :
    (clickedId = st.sortKey →
      (onChangeSort st clickedId).sortKey = st.sortKey ∧
      (st.sortOrder = SortOrder.ASC →
        (onChangeSort st clickedId).sortOrder = SortOrder.DESC) ∧
      (st.sortOrder = SortOrder.DESC →
        (onChangeSort st clickedId).sortOrder = SortOrder.ASC)) ∧
    (clickedId ≠ st.sortKey →
      (onChangeSort st clickedId).sortKey = clickedId ∧
      (onChangeSort st clickedId).sortOrder = SortOrder.ASC) := by
  constructor
  · intro heq
    subst heq
    refine ⟨by simp [onChangeSort], ?_, ?_⟩ <;>
      · intro hord
        simp [onChangeSort, hord]
  · intro hne
    have hbeq : (st.sortKey == clickedId) = false := by
      simp [Ne.symm hne]
    constructor <;> simp [onChangeSort, hbeq]

/-- C6 witness: on the initial sort state (key number, order DESC),
clicking number flips to ASC keeping the key, and clicking title
switches the key to title with ascending order. -/
theorem sortClick_toggles_or_resets_witness :
    (onChangeSort initialSort "number").sortKey = "number" ∧
    (onChangeSort initialSort "number").sortOrder = SortOrder.ASC ∧
    (onChangeSort initialSort "title").sortKey = "title" ∧
    (onChangeSort initialSort "title").sortOrder = SortOrder.ASC :=
  ⟨((sortClick_toggles_or_resets initialSort "number").1 rfl).1,
    ((sortClick_toggles_or_resets initialSort "number").1 rfl).2.2 rfl,
    ((sortClick_toggles_or_resets initialSort "title").2 (by decide)).1,
    ((sortClick_toggles_or_resets initialSort "title").2 (by decide)).2⟩

/-- C7: for every (user, task) input to the edit page, a null task
lookup renders the not-found state and an existing task with a non-owner
user renders the no-permission state; both are ordinary returned render
states, not thrown exceptions. -/
theorem editPage_expected_errors_are_states (user : QueryResult User)
    (task : QueryResult Task) :
    (task = QueryResult.null →
      EditTaskPage user task = Except.ok Render.taskNotFound) ∧
    (∀ t, task = QueryResult.found t → editIsOwner user t = false →
      EditTaskPage user task = Except.ok Render.noPermission) := by
  constructor
  · rintro rfl
    rfl
  · rintro t rfl hno
    cases user with
    | loading => rfl
    | null => rfl
    | found u => simp [EditTaskPage, hno]

/-- C7 witness: with no logged-in user, a null lookup renders not-found
and an existing concrete task renders no-permission, both as ok. -/
theorem editPage_expected_errors_are_states_witness :
    EditTaskPage QueryResult.null QueryResult.null =
      Except.ok Render.taskNotFound ∧
    EditTaskPage QueryResult.null
        (QueryResult.found (insertedTask emptyDb aliceUser basicTaskInfo)) =
      Except.ok Render.noPermission :=
  ⟨(editPage_expected_errors_are_states QueryResult.null QueryResult.null).1
      rfl,
    (editPage_expected_errors_are_states QueryResult.null
        (QueryResult.found (insertedTask emptyDb aliceUser basicTaskInfo))).2
      (insertedTask emptyDb aliceUser basicTaskInfo) rfl rfl⟩

/-- C10: when the current-user query resolves to null, the new-task page
throws the logged-in error instead of returning any rendered state. -/
theorem createTaskPage_null_user_throws :
    CreateTaskPage QueryResult.null =
      Except.error "User must be logged in to create a task" := rfl

/-- C9 counterexample: with entered text "hello" and a failing
saveComment, the input state after handleAddComment is empty — the
entered text is not still present, because the handler clears the input
before the mutation settles. -/
theorem failed_save_does_not_keep_text :
    (handleAddComment "hello" failingSave).2 =
      Except.error "mutation failed" ∧
    (handleAddComment "hello" failingSave).1 ≠ "hello" :=
  ⟨rfl, by decide⟩

/-- C9 amended: handleAddComment clears the comment input
unconditionally before invoking saveComment, so after a failed save the
input state is empty rather than the prior text; the mutation is invoked
with the text captured at render time and its outcome (including the
error) is propagated unchanged. -/
theorem addComment_clears_text_before_save (newComment : String)
    (saveCommentCall : String → Except String Unit) :
    (handleAddComment newComment saveCommentCall).1 = "" ∧
    (handleAddComment newComment saveCommentCall).2 =
      saveCommentCall newComment :=
  ⟨rfl, rfl⟩

end FullstackConvex
